import Mathlib

/-!
# Verification of the plumcast per-node protocol engine

Shallow embedding of the core of the `plumcast` crate — the per-node runtime
(`src/node.rs`) and the plumtree transport adapter (`src/rpc/plumtree.rs`) —
together with proofs of the specification claims about it.

The two protocol engines (the `hyparview` and `plumtree` crates) are external
to the repository.  Both expose their pending work as an action queue drained
by `poll_action`; we model each engine as an opaque internal state together
with an explicit action queue, and every engine algorithm (protocol-message
handling, neighbor notifications, broadcast submission, active-view
enumeration) as an injected function (`Engines`) that transforms the internal
state and appends freshly emitted actions.  The node runtime itself —
ownership of both queues, the drain loops of `Node::poll`, the deliverable
FIFO, `broadcast`, `leave`/drop — is translated directly from the source.
-/

namespace Plumcast

/-- `2^64`; `u64` arithmetic bound. -/
def U64_MOD : Nat := 2 ^ 64

/-- An opaque transport address (`std::net::SocketAddr`); the engine never
inspects it beyond equality. -/
structure SocketAddr where
  host : Nat
  port : Nat
deriving DecidableEq

/-- `LocalNodeId(u64)` — process-local tag disambiguating nodes that share an
address. -/
structure LocalNodeId where
  value : Nat
deriving DecidableEq

/-- `NodeId { addr, local_id }`, structurally compared. -/
structure NodeId where
  addr : SocketAddr
  local_id : LocalNodeId
deriving DecidableEq

/-- `MessageId { node_id, seqno }` — origin plus the origin's `u64` broadcast
sequence number. -/
structure MessageId where
  node_id : NodeId
  seqno : Nat
deriving DecidableEq

/-- `plumtree::message::Message<System>`: a message id plus an opaque byte
payload (`Vec<u8>`). -/
structure Message where
  id : MessageId
  payload : List Nat
deriving DecidableEq

/-- `hyparview::Event`: membership notifications. -/
inductive Event where
  | neighborUp (node : NodeId)
  | neighborDown (node : NodeId)
deriving DecidableEq

/-- `hyparview::message::ProtocolMessage`.  The node runtime constructs only
the `Disconnect` variant itself (in `Node::leave`); every other variant is
opaque to the runtime and represented by the parameter `H`. -/
inductive HvMsg (H : Type) where
  | disconnect (sender : NodeId)
  | other (m : H)
deriving DecidableEq

/-- `hyparview::Action`, as consumed by `Node::handle_hyparview_action`. -/
inductive HvAction (H : Type) where
  | send (destination : NodeId) (message : HvMsg H)
  | notify (event : Event)
  | disconnect (node : NodeId)
deriving DecidableEq

/-- `plumtree::Action`, as consumed by `Node::handle_plumtree_action`.
`PtMsg` is the opaque plumtree protocol-message type. -/
inductive PtAction (PtMsg : Type) where
  | send (destination : NodeId) (message : PtMsg)
  | deliver (message : Message)
deriving DecidableEq

/-- `RpcMessage`: the tagged union carried on the wire and on the per-node
inbox. -/
inductive RpcMessage (H PtMsg : Type) where
  | hyparview (m : HvMsg H)
  | plumtree (m : PtMsg)
deriving DecidableEq

/-- The algorithms of the two external engine crates, injected as functions.
Each handler returns the new internal state together with the list of actions
it appends to that engine's action queue. -/
structure Engines (HvI PtI H PtMsg : Type) where
  hvHandleProto : HvI → HvMsg H → HvI × List (HvAction H)
  hvActiveView : HvI → List NodeId
  ptHandleProto : PtI → PtMsg → PtI × List (PtAction PtMsg)
  ptNeighborUp : PtI → NodeId → PtI × List (PtAction PtMsg)
  ptNeighborDown : PtI → NodeId → PtI × List (PtAction PtMsg)
  ptBroadcast : PtI → Message → PtI × List (PtAction PtMsg)

/-- The state owned by one `Node` (struct `Node` in `src/node.rs`).  The two
engines are split into opaque internals plus their explicit action queues;
`inbox`/`senderAlive` model the `message_rx` channel (queued messages, and
whether any sender — i.e. the service registry's handle — is still alive);
`sent` logs `service.send_message` calls in call order. -/
structure NodeState (HvI PtI H PtMsg : Type) where
  id : NodeId
  localId : LocalNodeId
  hvInternal : HvI
  hvActions : List (HvAction H)
  ptInternal : PtI
  ptActions : List (PtAction PtMsg)
  messageSeqno : Nat
  deliverableMessages : List Message
  inbox : List (RpcMessage H PtMsg)
  senderAlive : Bool
  sent : List (NodeId × RpcMessage H PtMsg)

variable {HvI PtI H PtMsg : Type}

/-- `Node::new`: fresh node with `message_seqno: 0`, empty deliverable queue,
a fresh (empty, live) inbox channel, and freshly constructed engines
(`HyparviewNode::with_options` / `PlumtreeNode::new`, whose initial internal
states are supplied by the external crates). -/
def newNode (id : NodeId) (hv0 : HvI) (pt0 : PtI) : NodeState HvI PtI H PtMsg where
  id := id
  localId := id.local_id
  hvInternal := hv0
  hvActions := []
  ptInternal := pt0
  ptActions := []
  messageSeqno := 0
  deliverableMessages := []
  inbox := []
  senderAlive := true
  sent := []

/-- `Node::handle_hyparview_action`.  `Send` goes to the transport
(`service.send_message`), `Notify` events are forwarded to the plumtree
engine (`handle_neighbor_up`/`handle_neighbor_down`, which may emit plumtree
actions), `Disconnect` is informational (logged only). -/
def handleHyparviewAction (E : Engines HvI PtI H PtMsg)
    (s : NodeState HvI PtI H PtMsg) : HvAction H → NodeState HvI PtI H PtMsg
  | .send destination message =>
      { s with sent := s.sent ++ [(destination, .hyparview message)] }
  | .notify (.neighborDown n) =>
      let r := E.ptNeighborDown s.ptInternal n
      { s with ptInternal := r.1, ptActions := s.ptActions ++ r.2 }
  | .notify (.neighborUp n) =>
      let r := E.ptNeighborUp s.ptInternal n
      { s with ptInternal := r.1, ptActions := s.ptActions ++ r.2 }
  | .disconnect _ => s

/-- `Node::handle_plumtree_action`: `Send` goes to the transport, `Deliver`
is pushed to the back of the deliverable FIFO. -/
def handlePlumtreeAction (_E : Engines HvI PtI H PtMsg)
    (s : NodeState HvI PtI H PtMsg) : PtAction PtMsg → NodeState HvI PtI H PtMsg
  | .send destination message =>
      { s with sent := s.sent ++ [(destination, .plumtree message)] }
  | .deliver message =>
      { s with deliverableMessages := s.deliverableMessages ++ [message] }

/-- `Node::handle_rpc_message`: dispatch an inbox message to the matching
engine's `handle_protocol_message`. -/
def handleRpcMessage (E : Engines HvI PtI H PtMsg)
    (s : NodeState HvI PtI H PtMsg) : RpcMessage H PtMsg → NodeState HvI PtI H PtMsg
  | .hyparview m =>
      let r := E.hvHandleProto s.hvInternal m
      { s with hvInternal := r.1, hvActions := s.hvActions ++ r.2 }
  | .plumtree m =>
      let r := E.ptHandleProto s.ptInternal m
      { s with ptInternal := r.1, ptActions := s.ptActions ++ r.2 }

/-- `Node::broadcast`: stamp `MessageId { node_id: self.id, seqno:
self.message_seqno }`, then `self.message_seqno += 1`, then submit the
message to the plumtree engine (`broadcast_message`).  The increment is Rust
`u64` arithmetic: with overflow checks (mandatory in debug profiles, and the
Rust reference defines overflow as a program error) `+= 1` at `u64::MAX`
panics, halting the node; the panic is modelled as `none`. -/
def broadcast (E : Engines HvI PtI H PtMsg) (s : NodeState HvI PtI H PtMsg)
    (payload : List Nat) : Option (NodeState HvI PtI H PtMsg) :=
  let mid : MessageId := { node_id := s.id, seqno := s.messageSeqno }
  if s.messageSeqno + 1 < U64_MOD then
    let m : Message := { id := mid, payload := payload }
    let r := E.ptBroadcast s.ptInternal m
    some { s with
      messageSeqno := s.messageSeqno + 1,
      ptInternal := r.1,
      ptActions := s.ptActions ++ r.2 }
  else
    none

theorem hvActions_handleHyparviewAction (E : Engines HvI PtI H PtMsg) (s : NodeState HvI PtI H PtMsg)
    (a : HvAction H) : (handleHyparviewAction E s a).hvActions = s.hvActions := by
  cases a with
  | send d m => rfl
  | notify e => cases e <;> rfl
  | disconnect n => rfl

theorem ptActions_handlePlumtreeAction (E : Engines HvI PtI H PtMsg) (s : NodeState HvI PtI H PtMsg)
    (a : PtAction PtMsg) : (handlePlumtreeAction E s a).ptActions = s.ptActions := by
  cases a <;> rfl

theorem inbox_handleRpcMessage (E : Engines HvI PtI H PtMsg) (s : NodeState HvI PtI H PtMsg)
    (m : RpcMessage H PtMsg) : (handleRpcMessage E s m).inbox = s.inbox := by
  cases m <;> rfl

/-- The inner `while let Some(action) = self.hyparview_node.poll_action()`
loop of `Node::poll`: `poll_action` pops the front of the membership engine's
action queue; the popped action is handled on the remaining state.
Terminates because `handle_hyparview_action` never touches the membership
queue. -/
def drainHyparview (E : Engines HvI PtI H PtMsg) (s : NodeState HvI PtI H PtMsg) :
    NodeState HvI PtI H PtMsg :=
  match h : s.hvActions with
  | [] => s
  | a :: rest => drainHyparview E (handleHyparviewAction E { s with hvActions := rest } a)
termination_by s.hvActions.length
decreasing_by
  simp [hvActions_handleHyparviewAction, h]

/-- The inner `while let Some(action) = self.plumtree_node.poll_action()`
loop of `Node::poll`. -/
def drainPlumtree (E : Engines HvI PtI H PtMsg) (s : NodeState HvI PtI H PtMsg) :
    NodeState HvI PtI H PtMsg :=
  match h : s.ptActions with
  | [] => s
  | a :: rest => drainPlumtree E (handlePlumtreeAction E { s with ptActions := rest } a)
termination_by s.ptActions.length
decreasing_by
  simp [ptActions_handlePlumtreeAction, h]

/-- Result of draining the inbox channel: `serviceDown` is the early `Err`
return produced by `track_assert_some!(message, ErrorKind::Other, "Service
down")` when the channel reports termination (all senders dropped). -/
inductive InboxResult (α : Type) where
  | ok (s : α)
  | serviceDown (s : α)
deriving DecidableEq

/-- The inner `while let Async::Ready(message) = self.message_rx.poll()` loop
of `Node::poll`: queued messages are handled in FIFO order; once the queue is
exhausted the channel yields `NotReady` while a sender is alive (loop exits
normally) and `Ready(None)` once every sender is gone, which trips
`track_assert_some!` into an early `Err` return. -/
def drainInbox (E : Engines HvI PtI H PtMsg) (s : NodeState HvI PtI H PtMsg) :
    InboxResult (NodeState HvI PtI H PtMsg) :=
  match h : s.inbox with
  | [] => if s.senderAlive then .ok s else .serviceDown s
  | m :: rest => drainInbox E (handleRpcMessage E { s with inbox := rest } m)
termination_by s.inbox.length
decreasing_by
  simp [inbox_handleRpcMessage, h]

/-- The effect of one membership action on the broadcast engine, as performed
by `handle_hyparview_action`: `NeighborUp`/`NeighborDown` notifications are
forwarded through `handle_neighbor_up`/`handle_neighbor_down` (appending any
emitted broadcast-engine actions); `Send` and `Disconnect` leave the
broadcast engine untouched. -/
def absorbHvAction (E : Engines HvI PtI H PtMsg) :
    PtI × List (PtAction PtMsg) → HvAction H → PtI × List (PtAction PtMsg)
  | p, .notify (.neighborDown n) =>
      let r := E.ptNeighborDown p.1 n
      (r.1, p.2 ++ r.2)
  | p, .notify (.neighborUp n) =>
      let r := E.ptNeighborUp p.1 n
      (r.1, p.2 ++ r.2)
  | p, .send _ _ => p
  | p, .disconnect _ => p

/-- The transport sends produced by handling a list of membership actions. -/
def hvSends : List (HvAction H) → List (NodeId × RpcMessage H PtMsg)
  | [] => []
  | .send d m :: rest => (d, .hyparview m) :: hvSends rest
  | .notify _ :: rest => hvSends rest
  | .disconnect _ :: rest => hvSends rest

/-- The transport sends produced by handling a list of broadcast actions. -/
def ptSends : List (PtAction PtMsg) → List (NodeId × RpcMessage H PtMsg)
  | [] => []
  | .send d m :: rest => (d, .plumtree m) :: ptSends rest
  | .deliver _ :: rest => ptSends rest

/-- The application deliveries produced by handling a list of broadcast
actions, in emission order. -/
def ptDelivers : List (PtAction PtMsg) → List Message
  | [] => []
  | .deliver m :: rest => m :: ptDelivers rest
  | .send _ _ :: rest => ptDelivers rest

theorem drainHyparview_eq (E : Engines HvI PtI H PtMsg) (s : NodeState HvI PtI H PtMsg) :
    drainHyparview E s =
      { s with
        hvActions := [],
        ptInternal := (s.hvActions.foldl (absorbHvAction E) (s.ptInternal, s.ptActions)).1,
        ptActions := (s.hvActions.foldl (absorbHvAction E) (s.ptInternal, s.ptActions)).2,
        sent := s.sent ++ hvSends s.hvActions } := by
  induction s using drainHyparview.induct (E := E) with
  | case1 s h =>
    rw [drainHyparview, h]
    obtain ⟨i, l, hvI, hvA, ptI, ptA, q, d, ib, al, st⟩ := s
    simp only at h
    subst h
    simp [hvSends]
  | case2 s a rest h ih =>
    rw [drainHyparview, h]
    simp only []
    rw [ih]
    cases a with
    | send d m => simp [handleHyparviewAction, absorbHvAction, hvSends, h]
    | notify e => cases e <;> simp [handleHyparviewAction, absorbHvAction, hvSends, h]
    | disconnect n => simp [handleHyparviewAction, absorbHvAction, hvSends, h]

theorem drainPlumtree_eq (E : Engines HvI PtI H PtMsg) (s : NodeState HvI PtI H PtMsg) :
    drainPlumtree E s =
      { s with
        ptActions := [],
        deliverableMessages := s.deliverableMessages ++ ptDelivers s.ptActions,
        sent := s.sent ++ ptSends s.ptActions } := by
  induction s using drainPlumtree.induct (E := E) with
  | case1 s h =>
    rw [drainPlumtree, h]
    obtain ⟨i, l, hvI, hvA, ptI, ptA, q, d, ib, al, st⟩ := s
    simp only at h
    subst h
    simp [ptDelivers, ptSends]
  | case2 s a rest h ih =>
    rw [drainPlumtree, h]
    simp only []
    rw [ih]
    cases a <;> simp [handlePlumtreeAction, ptDelivers, ptSends, h]

/-- Feeding a list of inbox messages through `handle_rpc_message`, in FIFO
order. -/
def feedInbox (E : Engines HvI PtI H PtMsg) :
    NodeState HvI PtI H PtMsg → List (RpcMessage H PtMsg) → NodeState HvI PtI H PtMsg
  | s, [] => s
  | s, m :: rest => feedInbox E (handleRpcMessage E s m) rest

theorem handleRpcMessage_setInbox (E : Engines HvI PtI H PtMsg) (s : NodeState HvI PtI H PtMsg)
    (m : RpcMessage H PtMsg) (l : List (RpcMessage H PtMsg)) :
    handleRpcMessage E { s with inbox := l } m = { handleRpcMessage E s m with inbox := l } := by
  cases m <;> rfl

theorem senderAlive_handleRpcMessage (E : Engines HvI PtI H PtMsg) (s : NodeState HvI PtI H PtMsg)
    (m : RpcMessage H PtMsg) : (handleRpcMessage E s m).senderAlive = s.senderAlive := by
  cases m <;> rfl

theorem drainInbox_eq (E : Engines HvI PtI H PtMsg) (s : NodeState HvI PtI H PtMsg) :
    drainInbox E s =
      if s.senderAlive
      then .ok (feedInbox E { s with inbox := [] } s.inbox)
      else .serviceDown (feedInbox E { s with inbox := [] } s.inbox) := by
  induction s using drainInbox.induct (E := E) with
  | case1 s h halive =>
    rw [drainInbox, h]
    obtain ⟨i, l, hvI, hvA, ptI, ptA, q, d, ib, al, st⟩ := s
    simp only at h halive
    subst h
    simp [feedInbox, halive]
  | case2 s h halive =>
    rw [drainInbox, h]
    obtain ⟨i, l, hvI, hvA, ptI, ptA, q, d, ib, al, st⟩ := s
    simp only at h halive
    subst h
    simp [feedInbox, halive]
  | case3 s m rest h ih =>
    rw [drainInbox, h]
    simp only []
    rw [ih, senderAlive_handleRpcMessage, inbox_handleRpcMessage]
    cases m <;> simp [handleRpcMessage, feedInbox, h]

theorem drainHyparview_hvActions (E : Engines HvI PtI H PtMsg) (s : NodeState HvI PtI H PtMsg) :
    (drainHyparview E s).hvActions = [] := by rw [drainHyparview_eq]

theorem drainHyparview_inbox (E : Engines HvI PtI H PtMsg) (s : NodeState HvI PtI H PtMsg) :
    (drainHyparview E s).inbox = s.inbox := by rw [drainHyparview_eq]

theorem drainHyparview_senderAlive (E : Engines HvI PtI H PtMsg) (s : NodeState HvI PtI H PtMsg) :
    (drainHyparview E s).senderAlive = s.senderAlive := by rw [drainHyparview_eq]

theorem drainHyparview_deliverable (E : Engines HvI PtI H PtMsg) (s : NodeState HvI PtI H PtMsg) :
    (drainHyparview E s).deliverableMessages = s.deliverableMessages := by rw [drainHyparview_eq]

theorem drainPlumtree_ptActions (E : Engines HvI PtI H PtMsg) (s : NodeState HvI PtI H PtMsg) :
    (drainPlumtree E s).ptActions = [] := by rw [drainPlumtree_eq]

theorem drainPlumtree_hvActions (E : Engines HvI PtI H PtMsg) (s : NodeState HvI PtI H PtMsg) :
    (drainPlumtree E s).hvActions = s.hvActions := by rw [drainPlumtree_eq]

theorem drainPlumtree_inbox (E : Engines HvI PtI H PtMsg) (s : NodeState HvI PtI H PtMsg) :
    (drainPlumtree E s).inbox = s.inbox := by rw [drainPlumtree_eq]

theorem drainPlumtree_senderAlive (E : Engines HvI PtI H PtMsg) (s : NodeState HvI PtI H PtMsg) :
    (drainPlumtree E s).senderAlive = s.senderAlive := by rw [drainPlumtree_eq]

theorem feedInbox_inbox (E : Engines HvI PtI H PtMsg) (l : List (RpcMessage H PtMsg)) :
    ∀ s : NodeState HvI PtI H PtMsg, (feedInbox E s l).inbox = s.inbox := by
  induction l with
  | nil => intro s; rfl
  | cons m rest ih => intro s; rw [feedInbox, ih, inbox_handleRpcMessage]

theorem feedInbox_senderAlive (E : Engines HvI PtI H PtMsg) (l : List (RpcMessage H PtMsg)) :
    ∀ s : NodeState HvI PtI H PtMsg, (feedInbox E s l).senderAlive = s.senderAlive := by
  induction l with
  | nil => intro s; rfl
  | cons m rest ih => intro s; rw [feedInbox, ih, senderAlive_handleRpcMessage]

theorem setInbox_nil_eta (s : NodeState HvI PtI H PtMsg) (h : s.inbox = []) :
    { s with inbox := ([] : List (RpcMessage H PtMsg)) } = s := by rw [← h]

theorem setHvActions_nil_eta (s : NodeState HvI PtI H PtMsg) (h : s.hvActions = []) :
    { s with hvActions := ([] : List (HvAction H)) } = s := by rw [← h]

theorem drainHyparview_of_nil (E : Engines HvI PtI H PtMsg) (s : NodeState HvI PtI H PtMsg)
    (h : s.hvActions = []) : drainHyparview E s = s := by
  rw [drainHyparview_eq, h]
  simp [hvSends]
  exact setHvActions_nil_eta s h

theorem drainInbox_ok (E : Engines HvI PtI H PtMsg) {s t : NodeState HvI PtI H PtMsg}
    (h : drainInbox E s = .ok t) :
    s.senderAlive = true ∧ t = feedInbox E { s with inbox := [] } s.inbox := by
  rw [drainInbox_eq] at h
  cases hb : s.senderAlive with
  | true => simp [hb] at h; exact ⟨rfl, h.symm⟩
  | false => simp [hb] at h

theorem drainInbox_serviceDown_of_dead (E : Engines HvI PtI H PtMsg)
    (s : NodeState HvI PtI H PtMsg) (h : s.senderAlive = false) :
    drainInbox E s = .serviceDown (feedInbox E { s with inbox := [] } s.inbox) := by
  rw [drainInbox_eq, h]
  simp

/-- The outcome of one `Node::poll` call, i.e. `Poll<Option<Message>, Error>`:
`ready m` is `Ok(Async::Ready(Some(m)))`, `eos` is `Ok(Async::Ready(None))`,
`notReady` is `Ok(Async::NotReady)`, and `serviceDown` is
`Err(ErrorKind::Other)` raised by `track_assert_some!(_, ErrorKind::Other,
"Service down")`. -/
inductive Polled where
  | ready (m : Message)
  | eos
  | notReady
  | serviceDown
deriving DecidableEq

/-- `<Node as Stream>::poll`.  Each iteration of the `while did_something`
loop first pops the deliverable FIFO (returning `Ready(Some(front))` if
non-empty), then drains the membership engine's actions, then the broadcast
engine's actions, then the inbox channel; the loop repeats while any of the
three drains handled at least one item and finishes with `NotReady`.  A
channel termination signal aborts the whole call with the `Err` produced by
`track_assert_some!`. -/
def poll (E : Engines HvI PtI H PtMsg) (s : NodeState HvI PtI H PtMsg) :
    Polled × NodeState HvI PtI H PtMsg :=
  match s.deliverableMessages with
  | m :: rest => (.ready m, { s with deliverableMessages := rest })
  | [] =>
    match hinb : drainInbox E (drainPlumtree E (drainHyparview E s)) with
    | .serviceDown s3 => (.serviceDown, s3)
    | .ok s3 =>
      if hdid : (s.hvActions.isEmpty && (drainHyparview E s).ptActions.isEmpty
          && (drainPlumtree E (drainHyparview E s)).inbox.isEmpty) = true then
        (.notReady, s3)
      else
        poll E s3
termination_by (s.inbox.length, s.hvActions.length, s.ptActions.length)
decreasing_by
  obtain ⟨hal, hs3⟩ := drainInbox_ok E hinb
  have hs3inbox : s3.inbox = [] := by rw [hs3, feedInbox_inbox]
  by_cases hin : s.inbox = []
  · have h2in : (drainPlumtree E (drainHyparview E s)).inbox = [] := by
      rw [drainPlumtree_inbox, drainHyparview_inbox, hin]
    have hs3eq : s3 = drainPlumtree E (drainHyparview E s) := by
      rw [hs3, h2in]
      exact setInbox_nil_eta _ h2in
    by_cases hhv : s.hvActions = []
    · have h1 : drainHyparview E s = s := drainHyparview_of_nil E s hhv
      have hpt : s.ptActions ≠ [] := by
        intro hpt
        exact hdid (by simp [h1, hhv, hpt, drainPlumtree_inbox, hin])
      have hs3pt : s3.ptActions = [] := by rw [hs3eq, drainPlumtree_ptActions]
      have hs3hv : s3.hvActions = [] := by
        rw [hs3eq, drainPlumtree_hvActions, drainHyparview_hvActions]
      rw [hs3inbox, hin, hs3hv, hhv, hs3pt]
      exact Prod.Lex.right _ (Prod.Lex.right _ (by
        simpa using List.length_pos.mpr hpt))
    · have hs3hv : s3.hvActions = [] := by
        rw [hs3eq, drainPlumtree_hvActions, drainHyparview_hvActions]
      rw [hs3inbox, hin, hs3hv]
      exact Prod.Lex.right _ (Prod.Lex.left _ _ (by
        simpa using List.length_pos.mpr hhv))
  · rw [hs3inbox]
    exact Prod.Lex.left _ _ (by simpa using List.length_pos.mpr hin)

theorem setPtActions_nil_eta (s : NodeState HvI PtI H PtMsg) (h : s.ptActions = []) :
    { s with ptActions := ([] : List (PtAction PtMsg)) } = s := by rw [← h]

theorem drainPlumtree_of_nil (E : Engines HvI PtI H PtMsg) (s : NodeState HvI PtI H PtMsg)
    (h : s.ptActions = []) : drainPlumtree E s = s := by
  rw [drainPlumtree_eq, h]
  simp [ptSends, ptDelivers]
  exact setPtActions_nil_eta s h

theorem drainInbox_of_nil_alive (E : Engines HvI PtI H PtMsg) (s : NodeState HvI PtI H PtMsg)
    (h : s.inbox = []) (ha : s.senderAlive = true) : drainInbox E s = .ok s := by
  obtain ⟨i, l, hvI, hvA, ptI, ptA, q, d, ib, al, st⟩ := s
  simp only at h ha
  subst h
  subst ha
  rw [drainInbox_eq]
  simp [feedInbox]

theorem poll_pop (E : Engines HvI PtI H PtMsg) (s : NodeState HvI PtI H PtMsg)
    (m : Message) (rest : List Message) (h : s.deliverableMessages = m :: rest) :
    poll E s = (.ready m, { s with deliverableMessages := rest }) := by
  rw [poll, h]

theorem poll_notReady (E : Engines HvI PtI H PtMsg) (s : NodeState HvI PtI H PtMsg)
    (hdel : s.deliverableMessages = []) (hhv : s.hvActions = []) (hpt : s.ptActions = [])
    (hin : s.inbox = []) (ha : s.senderAlive = true) : poll E s = (.notReady, s) := by
  have h1 : drainHyparview E s = s := drainHyparview_of_nil E s hhv
  have h2 : drainPlumtree E (drainHyparview E s) = s := by
    rw [h1]; exact drainPlumtree_of_nil E s hpt
  have h3 : drainInbox E (drainPlumtree E (drainHyparview E s)) = .ok s := by
    rw [h2]; exact drainInbox_of_nil_alive E s hin ha
  rw [poll, hdel]
  simp only []
  split
  · rename_i s3 heq
    rw [h3] at heq
    cases heq
  · rename_i s3 heq
    rw [h3] at heq
    injection heq with heq
    subst heq
    simp [h1, h2, hhv, hpt, hin, drainPlumtree_inbox]

theorem poll_serviceDown (E : Engines HvI PtI H PtMsg) (s : NodeState HvI PtI H PtMsg)
    (hdel : s.deliverableMessages = []) (ha : s.senderAlive = false) :
    (poll E s).1 = .serviceDown := by
  have h2a : (drainPlumtree E (drainHyparview E s)).senderAlive = false := by
    rw [drainPlumtree_senderAlive, drainHyparview_senderAlive, ha]
  have h3 := drainInbox_serviceDown_of_dead E _ h2a
  rw [poll, hdel]
  simp only []
  split
  · rfl
  · rename_i s3 heq
    rw [h3] at heq
    cases heq

theorem broadcast_eq (E : Engines HvI PtI H PtMsg) (s : NodeState HvI PtI H PtMsg)
    (payload : List Nat) (h : s.messageSeqno + 1 < U64_MOD) :
    broadcast E s payload = some { s with
      messageSeqno := s.messageSeqno + 1,
      ptInternal := (E.ptBroadcast s.ptInternal
        { id := { node_id := s.id, seqno := s.messageSeqno }, payload := payload }).1,
      ptActions := s.ptActions ++ (E.ptBroadcast s.ptInternal
        { id := { node_id := s.id, seqno := s.messageSeqno }, payload := payload }).2 } := by
  simp [broadcast, h]

theorem broadcast_none (E : Engines HvI PtI H PtMsg) (s : NodeState HvI PtI H PtMsg)
    (payload : List Nat) (h : s.messageSeqno = U64_MOD - 1) :
    broadcast E s payload = none := by
  have : ¬(s.messageSeqno + 1 < U64_MOD) := by
    rw [h, U64_MOD]
    norm_num
  simp [broadcast, this]

theorem messageSeqno_broadcast (E : Engines HvI PtI H PtMsg) {s t : NodeState HvI PtI H PtMsg}
    {p : List Nat} (h : broadcast E s p = some t) : t.messageSeqno = s.messageSeqno + 1 := by
  by_cases hlt : s.messageSeqno + 1 < U64_MOD
  · rw [broadcast_eq E s p hlt] at h
    injection h with h
    rw [← h]
  · simp [broadcast, hlt] at h

/-- Specification harness around `broadcast`: perform a sequence of
`Node::broadcast` calls, recording the seqno stamped on each message (the
node's `message_seqno` at call time, per the `MessageId` construction in
`broadcast`); `none` if any call halts. -/
def broadcastSeq (E : Engines HvI PtI H PtMsg) (s : NodeState HvI PtI H PtMsg) :
    List (List Nat) → Option (List Nat × NodeState HvI PtI H PtMsg)
  | [] => some ([], s)
  | p :: ps =>
    match broadcast E s p with
    | none => none
    | some s1 =>
      match broadcastSeq E s1 ps with
      | none => none
      | some (seqs, s2) => some (s.messageSeqno :: seqs, s2)

theorem broadcastSeq_stamps (E : Engines HvI PtI H PtMsg) (ps : List (List Nat)) :
    ∀ (s : NodeState HvI PtI H PtMsg) (seqs : List Nat) (t : NodeState HvI PtI H PtMsg),
      broadcastSeq E s ps = some (seqs, t) → seqs = List.range' s.messageSeqno ps.length := by
  induction ps with
  | nil =>
    intro s seqs t h
    rw [broadcastSeq] at h
    injection h with h
    simp only [Prod.mk.injEq] at h
    rw [← h.1]
    rfl
  | cons p rest ih =>
    intro s seqs t h
    rw [broadcastSeq] at h
    split at h
    · cases h
    · rename_i s1 hb
      split at h
      · cases h
      · rename_i pr seqs1 sf hbs
        injection h with h
        simp only [Prod.mk.injEq] at h
        rw [← h.1, ih s1 seqs1 sf hbs, messageSeqno_broadcast E hb]
        rw [List.length_cons, List.range'_succ]

/-! ## Node drop (`impl Drop for Node` and `Node::leave`) -/

/-- One observable effect of dropping a `Node`, in call order: a registry
deregistration (`service.deregister_local_node`) or a transport send
(`service.send_message`). -/
inductive DropEvent (H PtMsg : Type) where
  | deregister (id : LocalNodeId)
  | sendMessage (destination : NodeId) (m : RpcMessage H PtMsg)
deriving DecidableEq

def DropEvent.isDeregister : DropEvent H PtMsg → Bool
  | .deregister _ => true
  | .sendMessage _ _ => false

def DropEvent.isSendMessage : DropEvent H PtMsg → Bool
  | .deregister _ => false
  | .sendMessage _ _ => true

/-- `Node::leave`: for each peer in the membership engine's active view,
build `ProtocolMessage::Disconnect(DisconnectMessage { sender: self.id })`,
wrap it as an `RpcMessage::Hyparview`, and hand it to the transport
(`service.send_message(peer, message)`). -/
def leave (E : Engines HvI PtI H PtMsg) (s : NodeState HvI PtI H PtMsg) :
    List (DropEvent H PtMsg) :=
  (E.hvActiveView s.hvInternal).map
    (fun peer => .sendMessage peer (.hyparview (.disconnect s.id)))

/-- `impl Drop for Node`: first
`self.service.deregister_local_node(self.local_id)`, then `self.leave()`. -/
def dropNode (E : Engines HvI PtI H PtMsg) (s : NodeState HvI PtI H PtMsg) :
    List (DropEvent H PtMsg) :=
  .deregister s.localId :: leave E s

/-- Interpretation of drop events over the service-side state (registered
local ids, transport send log). -/
def applyDropEvent (st : List LocalNodeId × List (NodeId × RpcMessage H PtMsg)) :
    DropEvent H PtMsg → List LocalNodeId × List (NodeId × RpcMessage H PtMsg)
  | .deregister lid => (st.1.filter (fun x => x != lid), st.2)
  | .sendMessage d m => (st.1, st.2 ++ [(d, m)])

/-- The service-side state after dropping the node. -/
def runDrop (E : Engines HvI PtI H PtMsg) (s : NodeState HvI PtI H PtMsg)
    (registry : List LocalNodeId) (sent : List (NodeId × RpcMessage H PtMsg)) :
    List LocalNodeId × List (NodeId × RpcMessage H PtMsg) :=
  (dropNode E s).foldl applyDropEvent (registry, sent)

/-- In `evs`, every transport send happens strictly before every
deregistration. -/
def sendsBeforeDeregister (evs : List (DropEvent H PtMsg)) : Prop :=
  ∀ i, (hi : i < evs.length) → ∀ j, (hj : j < evs.length) →
    (evs.get ⟨i, hi⟩).isSendMessage = true → (evs.get ⟨j, hj⟩).isDeregister = true → i < j

theorem foldl_applyDropEvent_sends (msg : RpcMessage H PtMsg) (peers : List NodeId) :
    ∀ (registry : List LocalNodeId) (sent : List (NodeId × RpcMessage H PtMsg)),
      (peers.map (fun p => DropEvent.sendMessage p msg)).foldl applyDropEvent (registry, sent)
        = (registry, sent ++ peers.map (fun p => (p, msg))) := by
  induction peers with
  | nil => intro registry sent; simp
  | cons p rest ih => intro registry sent; simp [applyDropEvent, ih]

/-! ## Plumtree transport adapter (`src/rpc/plumtree.rs`) and the service
registry it uses -/

/-- A plumtree wire message: the declared sender (`m.sender`, read by every
cast handler) plus an opaque family-specific body. -/
structure PtWireMsg (B : Type) where
  sender : NodeId
  body : B
deriving DecidableEq

/-- `plumtree::message::ProtocolMessage`: the four cast families, with
opaque bodies `GB`/`IB`/`GrB`/`PB`. -/
inductive PtProtocolMessage (GB IB GrB PB : Type) where
  | gossip (m : PtWireMsg GB)
  | ihave (m : PtWireMsg IB)
  | graft (m : PtWireMsg GrB)
  | prune (m : PtWireMsg PB)
deriving DecidableEq

/-- Service-side state visible to the cast handlers: the registry mapping
each registered local id to its node's inbox queue, plus the courtesy
Disconnect notices issued so far (their destinations, in order). -/
structure ServiceState (H PtMsg : Type) where
  registry : List (LocalNodeId × List (RpcMessage H PtMsg))
  disconnectsSent : List NodeId
deriving DecidableEq

/-- Registry lookup by local id. -/
def lookupNode : List (LocalNodeId × List (RpcMessage H PtMsg)) → LocalNodeId →
    Option (List (RpcMessage H PtMsg))
  | [], _ => none
  | e :: rest, id => if e.1 = id then some e.2 else lookupNode rest id

/-- Append a message to the inbox of the given local id (no-op if absent). -/
def enqueueMessage : List (LocalNodeId × List (RpcMessage H PtMsg)) → LocalNodeId →
    RpcMessage H PtMsg → List (LocalNodeId × List (RpcMessage H PtMsg))
  | [], _, _ => []
  | e :: rest, id, m =>
    if e.1 = id then (e.1, e.2 ++ [m]) :: rest else e :: enqueueMessage rest id m

/-- Modelled from the spec: `ServiceHandle::get_local_node_or_disconnect`
lives in `src/service.rs`, which is not among the provided sources.  Spec
§4.6: "`get_local_node_or_disconnect(local-id, apparent-sender)`: lookup; on
miss, synthesize a membership Disconnect back to the apparent sender so
stale peers learn of the gone node; return Option." -/
def get_local_node_or_disconnect (svc : ServiceState H PtMsg) (id : LocalNodeId)
    (apparent : NodeId) : Option LocalNodeId × ServiceState H PtMsg :=
  match lookupNode svc.registry id with
  | some _ => (some id, svc)
  | none => (none, { svc with disconnectsSent := svc.disconnectsSent ++ [apparent] })

variable {GB IB GrB PB : Type}

/-- `GossipHandler::handle_cast`: given the decoded notification `(id, m)`,
look up `id` via `get_local_node_or_disconnect(&id, &m.sender)`; if a node
handle is found, wrap `m` as `RpcMessage::Plumtree(ProtocolMessage::Gossip)`
and enqueue it on that node's inbox.  `transportPeer` is the transport-level
peer the cast physically arrived from; a `fibers_rpc` cast handler receives
only the decoded notification, so the handler cannot consult it — the
parameter exists here solely so that the spec's sender-match property can be
stated about this function. -/
def gossipHandleCast (svc : ServiceState H (PtProtocolMessage GB IB GrB PB))
    (_transportPeer : NodeId) (id : LocalNodeId) (m : PtWireMsg GB) :
    ServiceState H (PtProtocolMessage GB IB GrB PB) :=
  match get_local_node_or_disconnect svc id m.sender with
  | (some nid, svc1) =>
    { svc1 with registry := enqueueMessage svc1.registry nid (.plumtree (.gossip m)) }
  | (none, svc1) => svc1

/-- `IhaveHandler::handle_cast` (same shape as the gossip handler). -/
def ihaveHandleCast (svc : ServiceState H (PtProtocolMessage GB IB GrB PB))
    (_transportPeer : NodeId) (id : LocalNodeId) (m : PtWireMsg IB) :
    ServiceState H (PtProtocolMessage GB IB GrB PB) :=
  match get_local_node_or_disconnect svc id m.sender with
  | (some nid, svc1) =>
    { svc1 with registry := enqueueMessage svc1.registry nid (.plumtree (.ihave m)) }
  | (none, svc1) => svc1

/-- `GraftHandler::handle_cast` (same shape as the gossip handler). -/
def graftHandleCast (svc : ServiceState H (PtProtocolMessage GB IB GrB PB))
    (_transportPeer : NodeId) (id : LocalNodeId) (m : PtWireMsg GrB) :
    ServiceState H (PtProtocolMessage GB IB GrB PB) :=
  match get_local_node_or_disconnect svc id m.sender with
  | (some nid, svc1) =>
    { svc1 with registry := enqueueMessage svc1.registry nid (.plumtree (.graft m)) }
  | (none, svc1) => svc1

/-- `PruneHandler::handle_cast` (same shape as the gossip handler). -/
def pruneHandleCast (svc : ServiceState H (PtProtocolMessage GB IB GrB PB))
    (_transportPeer : NodeId) (id : LocalNodeId) (m : PtWireMsg PB) :
    ServiceState H (PtProtocolMessage GB IB GrB PB) :=
  match get_local_node_or_disconnect svc id m.sender with
  | (some nid, svc1) =>
    { svc1 with registry := enqueueMessage svc1.registry nid (.plumtree (.prune m)) }
  | (none, svc1) => svc1

/-- The `fibers_rpc` cast-client options the adapter touches (with their
crate-supplied defaults left abstract). -/
structure CastClientOptions where
  priority : Nat
  max_queue_len : Option Nat
deriving DecidableEq

/-- One `client.cast(addr, notification)` invocation: the procedure id of
the cast family, the options of the client performing it, the target
address, and the wire notification `(local_id, message)`. -/
structure CastCall (N : Type) where
  procedureId : Nat
  options : CastClientOptions
  addr : SocketAddr
  notification : N
deriving DecidableEq

/-- `GossipCast::ID`. -/
def GossipCast_ID : Nat := 0x17CD0000
/-- `IhaveCast::ID`. -/
def IhaveCast_ID : Nat := 0x17CD0001
/-- `GraftCast::ID`. -/
def GraftCast_ID : Nat := 0x17CD0002
/-- `PruneCast_ID`. -/
def PruneCast_ID : Nat := 0x17CD0003

/-- `gossip_cast`: build a `GossipCast` client from the service's default
options `d`, set `max_queue_len = Some(4096)`, and cast
`(peer.local_id, m)` to `peer.addr`. -/
def gossip_cast (d : CastClientOptions) (peer : NodeId) (m : PtWireMsg GB) :
    CastCall (LocalNodeId × PtWireMsg GB) where
  procedureId := GossipCast_ID
  options := { d with max_queue_len := some 4096 }
  addr := peer.addr
  notification := (peer.local_id, m)

/-- `ihave_cast`: additionally raises the client priority to 200. -/
def ihave_cast (d : CastClientOptions) (peer : NodeId) (m : PtWireMsg IB) :
    CastCall (LocalNodeId × PtWireMsg IB) where
  procedureId := IhaveCast_ID
  options := { d with priority := 200, max_queue_len := some 4096 }
  addr := peer.addr
  notification := (peer.local_id, m)

/-- `graft_cast`: default client options, untouched. -/
def graft_cast (d : CastClientOptions) (peer : NodeId) (m : PtWireMsg GrB) :
    CastCall (LocalNodeId × PtWireMsg GrB) where
  procedureId := GraftCast_ID
  options := d
  addr := peer.addr
  notification := (peer.local_id, m)

/-- `prune_cast`: default client options, untouched. -/
def prune_cast (d : CastClientOptions) (peer : NodeId) (m : PtWireMsg PB) :
    CastCall (LocalNodeId × PtWireMsg PB) where
  procedureId := PruneCast_ID
  options := d
  addr := peer.addr
  notification := (peer.local_id, m)

/-! ## `NodeHandle::send_rpc_message` over the inbox channel -/

/-- The error of a failed `fibers` mpsc send (receiver dropped). -/
inductive SendError where
  | disconnected
deriving DecidableEq

/-- `mpsc::Sender::send`: the channel state is `some queue` while the
receiver lives and `none` once it was dropped; a send appends to the queue
or fails with a disconnection error. -/
def mpscSend (chan : Option (List (RpcMessage H PtMsg))) (m : RpcMessage H PtMsg) :
    Except SendError (List (RpcMessage H PtMsg)) :=
  match chan with
  | some q => .ok (q ++ [m])
  | none => .error .disconnected

/-- `NodeHandle::send_rpc_message`: `let _ = self.message_tx.send(message);`
— the send's `Result` is discarded, so a failed send leaves the channel
state unchanged and the function returns normally. -/
def send_rpc_message (chan : Option (List (RpcMessage H PtMsg))) (m : RpcMessage H PtMsg) :
    Option (List (RpcMessage H PtMsg)) :=
  match mpscSend chan m with
  | .ok q => some q
  | .error _ => chan

theorem get_local_some (svc : ServiceState H PtMsg) (id : LocalNodeId) (apparent : NodeId)
    (h : (lookupNode svc.registry id).isSome = true) :
    get_local_node_or_disconnect svc id apparent = (some id, svc) := by
  unfold get_local_node_or_disconnect
  cases hl : lookupNode svc.registry id with
  | some q => rfl
  | none => rw [hl] at h; cases h

theorem get_local_none (svc : ServiceState H PtMsg) (id : LocalNodeId) (apparent : NodeId)
    (h : lookupNode svc.registry id = none) :
    get_local_node_or_disconnect svc id apparent
      = (none, { svc with disconnectsSent := svc.disconnectsSent ++ [apparent] }) := by
  unfold get_local_node_or_disconnect
  rw [h]

/-! ## Concrete instances used by witnesses and counterexamples -/

/-- Trivial engine algorithms over `Unit` internals: every handler emits no
actions, the active view is empty. -/
def unitEngines : Engines Unit Unit Unit Unit where
  hvHandleProto := fun _ _ => ((), [])
  hvActiveView := fun _ => []
  ptHandleProto := fun _ _ => ((), [])
  ptNeighborUp := fun _ _ => ((), [])
  ptNeighborDown := fun _ _ => ((), [])
  ptBroadcast := fun _ _ => ((), [])

def nidA : NodeId := ⟨⟨0, 0⟩, ⟨0⟩⟩
def nidB : NodeId := ⟨⟨1, 1⟩, ⟨1⟩⟩

/-- Like `unitEngines` but with `nidB` in the active view. -/
def peerEngines : Engines Unit Unit Unit Unit :=
  { unitEngines with hvActiveView := fun _ => [nidB] }

def nodeA : NodeState Unit Unit Unit Unit := newNode nidA () ()

/-- `nodeA` after its service (the only inbox sender) was torn down. -/
def deadNodeA : NodeState Unit Unit Unit Unit := { nodeA with senderAlive := false }

/-- `nodeA` with `message_seqno` at `u64::MAX`. -/
def maxSeqnoNodeA : NodeState Unit Unit Unit Unit := { nodeA with messageSeqno := U64_MOD - 1 }

def msgA : Message := ⟨⟨nidA, 0⟩, [104, 105]⟩

def nodeWithDeliverable : NodeState Unit Unit Unit Unit :=
  { nodeA with deliverableMessages := [msgA] }

/-- A registry with one registered node (local id 0, empty inbox). -/
def svcReg : ServiceState Unit (PtProtocolMessage Unit Unit Unit Unit) := ⟨[(⟨0⟩, [])], []⟩

/-- A registry with no registered node. -/
def svcEmpty : ServiceState Unit (PtProtocolMessage Unit Unit Unit Unit) := ⟨[], []⟩

/-- A wire message whose declared sender is `nidB`. -/
def wireMsgB : PtWireMsg Unit := ⟨nidB, ()⟩

/-! ## Claim theorems -/

/-- C1: Within every pass of the `Node::poll` round-robin loop, the
broadcast engine is polled (`drainPlumtree`) only on the output of
`drainHyparview`, and that output has (i) an empty membership action queue —
all pending membership-engine actions were drained and handled — and (ii) a
broadcast engine that has already absorbed, in queue order, every
`NeighborDown` (and `NeighborUp`) among those pending actions via
`handle_neighbor_down`/`handle_neighbor_up` (`absorbHvAction`).  Hence every
`NeighborDown` from membership is forwarded to the broadcast engine before
that engine's next `poll_action` in the pass. -/
theorem neighborDown_forwarded_before_plumtree_poll (E : Engines HvI PtI H PtMsg)
    (s : NodeState HvI PtI H PtMsg) :
    (drainHyparview E s).hvActions = [] ∧
    (drainHyparview E s).ptInternal
      = (s.hvActions.foldl (absorbHvAction E) (s.ptInternal, s.ptActions)).1 ∧
    (drainHyparview E s).ptActions
      = (s.hvActions.foldl (absorbHvAction E) (s.ptInternal, s.ptActions)).2 := by
  refine ⟨drainHyparview_hvActions E s, ?_, ?_⟩ <;> rw [drainHyparview_eq]

/-- C2: `Node::broadcast` submits to the broadcast engine exactly the message
`Message { id: MessageId { node_id: self.id, seqno: self.message_seqno },
payload }` with the payload unchanged, and increments `message_seqno` by one;
if the increment would wrap past `u64::MAX` (`message_seqno = 2^64 - 1`) the
node halts (the `u64` overflow panic, modelled as `none`) instead of
wrapping. -/
theorem broadcast_stamps_and_halts_on_wrap (E : Engines HvI PtI H PtMsg)
    (s : NodeState HvI PtI H PtMsg) (payload : List Nat) :
    (s.messageSeqno + 1 < U64_MOD →
      broadcast E s payload = some { s with
        messageSeqno := s.messageSeqno + 1,
        ptInternal := (E.ptBroadcast s.ptInternal
          { id := { node_id := s.id, seqno := s.messageSeqno }, payload := payload }).1,
        ptActions := s.ptActions ++ (E.ptBroadcast s.ptInternal
          { id := { node_id := s.id, seqno := s.messageSeqno }, payload := payload }).2 }) ∧
    (s.messageSeqno = U64_MOD - 1 → broadcast E s payload = none) :=
  ⟨broadcast_eq E s payload, broadcast_none E s payload⟩

theorem broadcast_stamps_and_halts_on_wrap_witness :
    broadcast unitEngines nodeA [7] = some { nodeA with messageSeqno := 1 } ∧
    broadcast unitEngines maxSeqnoNodeA [7] = none := by
  constructor
  · have h := (broadcast_stamps_and_halts_on_wrap unitEngines nodeA [7]).1 (by decide)
    rw [h]
    rfl
  · exact (broadcast_stamps_and_halts_on_wrap unitEngines maxSeqnoNodeA [7]).2 rfl

/-- C3: a node constructed by `Node::new` has `message_seqno = 0`, and each
`broadcast` stamps the current `message_seqno` before incrementing it, so the
seqnos stamped on a node's successive broadcasts are exactly `0, 1, 2, …` —
strictly increasing within the node's lifetime. -/
theorem seqno_starts_at_zero_and_increases (E : Engines HvI PtI H PtMsg) (id : NodeId)
    (hv0 : HvI) (pt0 : PtI) (ps : List (List Nat)) (seqs : List Nat)
    (t : NodeState HvI PtI H PtMsg)
    (h : broadcastSeq E (newNode id hv0 pt0) ps = some (seqs, t)) :
    (newNode id hv0 pt0 : NodeState HvI PtI H PtMsg).messageSeqno = 0 ∧
    seqs = List.range ps.length ∧
    List.Pairwise (· < ·) seqs := by
  have hs := broadcastSeq_stamps E ps _ seqs t h
  refine ⟨rfl, ?_, ?_⟩
  · rw [hs, List.range_eq_range']
    rfl
  · rw [hs]
    exact List.pairwise_lt_range' _ _ 1

/-- The state of `nodeA` after three successful broadcasts. -/
def nodeAAfter3 : NodeState Unit Unit Unit Unit := { nodeA with messageSeqno := 3 }

theorem seqno_starts_at_zero_and_increases_witness :
    (newNode nidA () () : NodeState Unit Unit Unit Unit).messageSeqno = 0 ∧
    [0, 1, 2] = List.range 3 ∧
    List.Pairwise (· < ·) [0, 1, 2] := by
  have h : broadcastSeq unitEngines (newNode nidA () ()) [[1], [2], [3]]
      = some ([0, 1, 2], nodeAAfter3) := rfl
  exact seqno_starts_at_zero_and_increases unitEngines nidA () () [[1], [2], [3]]
    [0, 1, 2] nodeAAfter3 h

/-- C4: when the deliverable queue is non-empty at the top of a `Node::poll`
pass, `poll` returns `Ready(Some(front))` and removes the front (oldest)
element; `Deliver` actions from the broadcast engine are pushed to the back
of the queue (both singly in `handle_plumtree_action` and, over a whole
drain, in emission order), so messages reach the application in FIFO order
of `Deliver` emission. -/
theorem poll_pops_front_and_deliver_pushes_back (E : Engines HvI PtI H PtMsg)
    (s : NodeState HvI PtI H PtMsg) (m : Message) (rest : List Message)
    (h : s.deliverableMessages = m :: rest) :
    poll E s = (.ready m, { s with deliverableMessages := rest }) ∧
    (∀ (t : NodeState HvI PtI H PtMsg) (msg : Message),
      (handlePlumtreeAction E t (.deliver msg)).deliverableMessages
        = t.deliverableMessages ++ [msg]) ∧
    (∀ t : NodeState HvI PtI H PtMsg,
      (drainPlumtree E t).deliverableMessages
        = t.deliverableMessages ++ ptDelivers t.ptActions) := by
  refine ⟨poll_pop E s m rest h, fun t msg => rfl, fun t => ?_⟩
  rw [drainPlumtree_eq]

theorem poll_pops_front_and_deliver_pushes_back_witness :
    poll unitEngines nodeWithDeliverable
      = (.ready msgA, { nodeWithDeliverable with deliverableMessages := [] }) ∧
    (handlePlumtreeAction unitEngines nodeA (.deliver msgA)).deliverableMessages
      = nodeA.deliverableMessages ++ [msgA] := by
  have h := poll_pops_front_and_deliver_pushes_back unitEngines nodeWithDeliverable
    msgA [] rfl
  exact ⟨h.1, h.2.1 nodeA msgA⟩

/-- C5: when the deliverable queue is empty, both engines' `poll_action`
yields nothing (their action queues are empty), the inbox is empty and the
service is still alive, `Node::poll` returns `NotReady` (Pending), leaving
the state unchanged — no busy spin and no message. -/
theorem poll_pending_when_idle (E : Engines HvI PtI H PtMsg) (s : NodeState HvI PtI H PtMsg)
    (hdel : s.deliverableMessages = []) (hhv : s.hvActions = []) (hpt : s.ptActions = [])
    (hin : s.inbox = []) (ha : s.senderAlive = true) :
    poll E s = (.notReady, s) :=
  poll_notReady E s hdel hhv hpt hin ha

theorem poll_pending_when_idle_witness :
    poll unitEngines nodeA = (.notReady, nodeA) :=
  poll_pending_when_idle unitEngines nodeA rfl rfl rfl rfl rfl

/-- C6 counterexample: the claim requires that a gossip whose declared
sender differs from the transport peer it arrived from is dropped.  With
local id 0 registered, a gossip declaring sender `nidB` that arrives from
transport peer `nidA ≠ nidB` is nevertheless enqueued on the target inbox:
the handler (which never receives the transport peer) enqueues it, so the
claim is false. -/
theorem sender_match_counterexample :
    wireMsgB.sender ≠ nidA ∧
    (gossipHandleCast svcReg nidA ⟨0⟩ wireMsgB).registry
      = [(⟨0⟩, [.plumtree (.gossip wireMsgB)])] ∧
    ¬ (∀ (svc : ServiceState Unit (PtProtocolMessage Unit Unit Unit Unit)) (tp : NodeId)
        (id : LocalNodeId) (m : PtWireMsg Unit),
          (gossipHandleCast svc tp id m).registry ≠ svc.registry → m.sender = tp) := by
  refine ⟨by decide, by decide, fun hclaim => ?_⟩
  have := hclaim svcReg nidA ⟨0⟩ wireMsgB (by decide)
  exact absurd this (by decide)

/-- C6 amended: each of the four plumtree cast handlers enqueues the wrapped
protocol message on the target inbox exactly when the carried `local_id` is
registered — regardless of the declared sender or of the transport peer —
and on an unknown `local_id` issues a courtesy Disconnect to the message's
declared sender and drops the message.  (No sender-vs-transport-peer check
exists; the handler never receives the transport peer.) -/
theorem handler_enqueues_iff_registered
    (svc : ServiceState H (PtProtocolMessage GB IB GrB PB)) (tp : NodeId) (id : LocalNodeId) :
    (∀ m : PtWireMsg GB, (lookupNode svc.registry id).isSome = true →
      gossipHandleCast svc tp id m
        = { svc with registry := enqueueMessage svc.registry id (.plumtree (.gossip m)) }) ∧
    (∀ m : PtWireMsg GB, lookupNode svc.registry id = none →
      gossipHandleCast svc tp id m
        = { svc with disconnectsSent := svc.disconnectsSent ++ [m.sender] }) ∧
    (∀ m : PtWireMsg IB, (lookupNode svc.registry id).isSome = true →
      ihaveHandleCast svc tp id m
        = { svc with registry := enqueueMessage svc.registry id (.plumtree (.ihave m)) }) ∧
    (∀ m : PtWireMsg IB, lookupNode svc.registry id = none →
      ihaveHandleCast svc tp id m
        = { svc with disconnectsSent := svc.disconnectsSent ++ [m.sender] }) ∧
    (∀ m : PtWireMsg GrB, (lookupNode svc.registry id).isSome = true →
      graftHandleCast svc tp id m
        = { svc with registry := enqueueMessage svc.registry id (.plumtree (.graft m)) }) ∧
    (∀ m : PtWireMsg GrB, lookupNode svc.registry id = none →
      graftHandleCast svc tp id m
        = { svc with disconnectsSent := svc.disconnectsSent ++ [m.sender] }) ∧
    (∀ m : PtWireMsg PB, (lookupNode svc.registry id).isSome = true →
      pruneHandleCast svc tp id m
        = { svc with registry := enqueueMessage svc.registry id (.plumtree (.prune m)) }) ∧
    (∀ m : PtWireMsg PB, lookupNode svc.registry id = none →
      pruneHandleCast svc tp id m
        = { svc with disconnectsSent := svc.disconnectsSent ++ [m.sender] }) := by
  refine ⟨fun m h => ?_, fun m h => ?_, fun m h => ?_, fun m h => ?_,
    fun m h => ?_, fun m h => ?_, fun m h => ?_, fun m h => ?_⟩ <;>
    first
      | (unfold gossipHandleCast; rw [get_local_some svc id m.sender h])
      | (unfold gossipHandleCast; rw [get_local_none svc id m.sender h])
      | (unfold ihaveHandleCast; rw [get_local_some svc id m.sender h])
      | (unfold ihaveHandleCast; rw [get_local_none svc id m.sender h])
      | (unfold graftHandleCast; rw [get_local_some svc id m.sender h])
      | (unfold graftHandleCast; rw [get_local_none svc id m.sender h])
      | (unfold pruneHandleCast; rw [get_local_some svc id m.sender h])
      | (unfold pruneHandleCast; rw [get_local_none svc id m.sender h])

theorem handler_enqueues_iff_registered_witness :
    gossipHandleCast svcReg nidA ⟨0⟩ wireMsgB
      = { svcReg with
          registry := enqueueMessage svcReg.registry ⟨0⟩ (.plumtree (.gossip wireMsgB)) } ∧
    pruneHandleCast svcEmpty nidA ⟨0⟩ wireMsgB
      = { svcEmpty with disconnectsSent := [nidB] } := by
  constructor
  · exact (handler_enqueues_iff_registered svcReg nidA ⟨0⟩).1 wireMsgB (by decide)
  · exact (handler_enqueues_iff_registered svcEmpty nidA ⟨0⟩).2.2.2.2.2.2.2 wireMsgB rfl

/-- C7 counterexample: with the inbox channel reporting termination (service
gone) and nothing else to do, `Node::poll` does **not** return
`Ready(None)` (`Polled.eos`) as the claim states — it returns the stream's
`Err` (`Polled.serviceDown`). -/
theorem poll_eos_counterexample :
    (poll unitEngines deadNodeA).1 = .serviceDown ∧
    (poll unitEngines deadNodeA).1 ≠ .eos := by
  have h := poll_serviceDown unitEngines deadNodeA rfl rfl
  exact ⟨h, by rw [h]; decide⟩

/-- C7 amended: when the service is gone while the node lives (the inbox
channel reports termination during a poll), `Node::poll` surfaces the fatal
condition through the stream's `Err` variant
(`Err(ErrorKind::Other, "Service down")`, `Polled.serviceDown`) — it never
returns `Ready(None)`. -/
theorem poll_errors_when_service_down (E : Engines HvI PtI H PtMsg)
    (s : NodeState HvI PtI H PtMsg) (hdel : s.deliverableMessages = [])
    (ha : s.senderAlive = false) :
    (poll E s).1 = .serviceDown ∧ (poll E s).1 ≠ .eos := by
  have h := poll_serviceDown E s hdel ha
  exact ⟨h, by rw [h]; decide⟩

theorem poll_errors_when_service_down_witness :
    (poll peerEngines deadNodeA).1 = .serviceDown ∧
    (poll peerEngines deadNodeA).1 ≠ .eos :=
  poll_errors_when_service_down peerEngines deadNodeA rfl rfl

/-- C8 counterexample: dropping a node with `nidB` in its active view
produces the event sequence `[deregister, send Disconnect to nidB]` — the
deregistration happens **first**, so the claim's requirement that the
Disconnect messages are sent before the deregistration is false. -/
theorem drop_order_counterexample :
    dropNode peerEngines nodeA
      = [.deregister nidA.local_id, .sendMessage nidB (.hyparview (.disconnect nidA))] ∧
    ¬ sendsBeforeDeregister (dropNode peerEngines nodeA) := by
  refine ⟨rfl, fun hs => ?_⟩
  exact absurd (hs 1 (by decide) 0 (by decide) (by decide) (by decide)) (by decide)

/-- C8 amended: when a `Node` is dropped, its `local_id` is first
deregistered from the service registry and **then** a hyparview Disconnect
with `sender = self.id` is handed to the transport for every peer currently
in the membership engine's active view (deregistration precedes the sends,
not the reverse; the leave phase performs no deregistration). -/
theorem drop_deregisters_then_disconnects (E : Engines HvI PtI H PtMsg)
    (s : NodeState HvI PtI H PtMsg) (registry : List LocalNodeId)
    (sent : List (NodeId × RpcMessage H PtMsg)) :
    dropNode E s = .deregister s.localId :: leave E s ∧
    (runDrop E s registry sent).1 = registry.filter (fun x => x != s.localId) ∧
    (runDrop E s registry sent).2
      = sent ++ (E.hvActiveView s.hvInternal).map
          (fun peer => (peer, RpcMessage.hyparview (HvMsg.disconnect s.id))) ∧
    ∀ e ∈ leave E s, e.isDeregister = false := by
  have hrun : runDrop E s registry sent
      = (registry.filter (fun x => x != s.localId),
         sent ++ (E.hvActiveView s.hvInternal).map
           (fun peer => (peer, RpcMessage.hyparview (HvMsg.disconnect s.id)))) := by
    rw [runDrop, dropNode, List.foldl_cons]
    rw [show applyDropEvent (registry, sent) (.deregister s.localId)
      = (registry.filter (fun x => x != s.localId), sent) from rfl]
    rw [leave, foldl_applyDropEvent_sends]
  refine ⟨rfl, by rw [hrun], by rw [hrun], fun e he => ?_⟩
  rw [leave] at he
  simp only [List.mem_map] at he
  obtain ⟨p, _, he⟩ := he
  rw [← he]
  rfl

/-- C9: the four plumtree cast families use procedure ids
`0x17CD_0000`–`0x17CD_0003`; the gossip and ihave clients cap their send
queues at 4096; the ihave client's priority is raised to 200; graft and
prune run with the default client options untouched. -/
theorem cast_procedure_ids_and_options (d : CastClientOptions) (peer : NodeId)
    (mg : PtWireMsg GB) (mi : PtWireMsg IB) (mgr : PtWireMsg GrB) (mp : PtWireMsg PB) :
    (gossip_cast d peer mg).procedureId = 0x17CD0000 ∧
    (gossip_cast d peer mg).options = { d with max_queue_len := some 4096 } ∧
    (gossip_cast d peer mg).options.priority = d.priority ∧
    (ihave_cast d peer mi).procedureId = 0x17CD0001 ∧
    (ihave_cast d peer mi).options.priority = 200 ∧
    (ihave_cast d peer mi).options.max_queue_len = some 4096 ∧
    (graft_cast d peer mgr).procedureId = 0x17CD0002 ∧
    (graft_cast d peer mgr).options = d ∧
    (prune_cast d peer mp).procedureId = 0x17CD0003 ∧
    (prune_cast d peer mp).options = d :=
  ⟨rfl, rfl, rfl, rfl, rfl, rfl, rfl, rfl, rfl, rfl⟩

/-- C10: `NodeHandle::send_rpc_message` discards the result of the channel
send, so it returns normally even when the inbox receiver has been dropped
(in which case the underlying `mpsc::Sender::send` fails with a
disconnection error and the failed send is silently swallowed); with a live
receiver the message is appended to the inbox queue. -/
theorem send_rpc_message_swallows_error (m : RpcMessage H PtMsg) :
    mpscSend (none : Option (List (RpcMessage H PtMsg))) m = .error .disconnected ∧
    send_rpc_message (none : Option (List (RpcMessage H PtMsg))) m = none ∧
    ∀ q : List (RpcMessage H PtMsg), send_rpc_message (some q) m = some (q ++ [m]) :=
  ⟨rfl, rfl, fun _ => rfl⟩

end Plumcast
